import Mathlib

/-!
Verification development for the Ultimate Focus Timer repository.

This file gives a shallow embedding of the two stateful components of the
repository and proves properties of them:

* `src/session_manager.py` — the session lifecycle engine (class
  `SessionManager` with enums `SessionType`, `SessionState`): state machine,
  one-second timer loop, early-warning notification, auto-chain suggestion,
  event logging.

* `src/dashboard.py` — the analytics reader (class `SessionAnalyzer`):
  regex-based log parsing (`load_session_data`), statistics
  (`calculate_stats`) and streak computation (`_calculate_streak`).

Modelling conventions:

* Machine integers are modelled as `Nat` / `Int`; Python floats that only
  ever hold exact decimals are modelled as `Rat`.
* Durations passed to the engine are modelled as `Nat` minutes (the Python
  signature annotates `int`; the domain is planned minutes).
* Wall-clock timestamps are modelled as abstract `Nat` instants supplied to
  the operations; calendar dates are modelled as `Int` day numbers.
* The timer thread of `_timer_loop` is modelled by explicit `tick` /
  `complete_session` steps of a transition relation; one `tick` is one pass
  of the loop body taken with the loop guard `elapsed_seconds <
  session_duration` true and the state `RUNNING` (any other pass of the
  loop body mutates nothing).
* Side effects on collaborators (music, notifications) are not part of the
  state except for the early-warning notification, which claim C9 is about:
  the field `early_warnings` counts the `show_early_warning` calls issued
  since the current session started, and `early_warning_sent` mirrors the
  local flag `early_warning_sent` of `_timer_loop`.
-/

/-- `SessionType` enum of `session_manager.py`. -/
inductive SessionType where
  | work
  | short_break
  | long_break
  | custom
deriving DecidableEq, Repr

/-- The `value` string of each `SessionType` member. -/
def SessionType.value : SessionType → String
  | .work => "work"
  | .short_break => "short_break"
  | .long_break => "long_break"
  | .custom => "custom"

/-- `SessionState` enum of `session_manager.py`. -/
inductive SessionState where
  | ready
  | running
  | paused
  | completed
  | stopped
deriving DecidableEq, Repr

/-- Configuration values read by `SessionManager` through
`self.config.get(key, default)`.  Field names follow the config keys. -/
structure Config where
  work_mins : Nat := 25
  short_break_mins : Nat := 5
  long_break_mins : Nat := 15
  notify_early_warning : Nat := 2
  long_break_interval : Nat := 4
deriving DecidableEq, Repr

/-- The configuration with every key at its default value (the defaults in
`config_manager.py` coincide with the fallback defaults passed to
`config.get` in `session_manager.py`). -/
def defaultConfig : Config := {}

/-- Python banker's rounding of a rational to the nearest integer
(`round(x)`): ties go to the even neighbour. -/
def roundHalfEven (q : ℚ) : ℤ :=
  if q - ⌊q⌋ < 1 / 2 then ⌊q⌋
  else if 1 / 2 < q - ⌊q⌋ then ⌊q⌋ + 1
  else if 2 ∣ ⌊q⌋ then ⌊q⌋ else ⌊q⌋ + 1

/-- Python `round(x, 1)` on an exact decimal value. -/
def pythonRound1 (q : ℚ) : ℚ := (roundHalfEven (q * 10) : ℚ) / 10

/-- One line appended to `log/focus.log` by
`SessionManager._log_session_event`, kept structured: the event word, the
session type and the duration value interpolated into the line. -/
structure LogEntry where
  event : String
  ty : SessionType
  duration_minutes : ℚ
deriving DecidableEq, Repr

/-- The mutable fields of `SessionManager` relevant to the claims, plus the
log file contents and the early-warning instrumentation (see the header
comment).  Field names follow the Python attribute names. -/
structure MState where
  session_type : SessionType
  session_duration : Nat
  elapsed_seconds : Nat
  state : SessionState
  start_time : Option Nat
  pause_time : Option Nat
  completed_work_sessions : Nat
  session_count : Nat
  log : List LogEntry
  early_warning_sent : Bool
  early_warnings : Nat
deriving DecidableEq, Repr

/-- The state built by `SessionManager.__init__`. -/
def initState : MState where
  session_type := .work
  session_duration := 0
  elapsed_seconds := 0
  state := .ready
  start_time := none
  pause_time := none
  completed_work_sessions := 0
  session_count := 0
  log := []
  early_warning_sent := false
  early_warnings := 0

/-- The per-type default duration map of `start_session` (minutes). -/
def defaultDurationMins (c : Config) : SessionType → Nat
  | .work => c.work_mins
  | .short_break => c.short_break_mins
  | .long_break => c.long_break_mins
  | .custom => 25

/-- `SessionManager.start_session`: rejected (returning `False`, mutating
nothing) exactly when the state is `RUNNING`; otherwise sets the session
parameters, resets elapsed time, records the start instant, transitions to
`RUNNING` and writes a `Started` record.  The early-warning flag is the
local variable of the freshly launched `_timer_loop` thread, initialised to
`False`. -/
def start_session (c : Config) (ty : SessionType) (duration_minutes : Option Nat)
    (now : Nat) (s : MState) : Bool × MState :=
  if s.state = .running then (false, s)
  else
    let dm := duration_minutes.getD (defaultDurationMins c ty)
    (true,
      { s with
        session_type := ty
        session_duration := dm * 60
        elapsed_seconds := 0
        start_time := some now
        pause_time := none
        state := .running
        early_warning_sent := false
        early_warnings := 0
        log := s.log ++ [⟨"Started", ty, (dm : ℚ)⟩] })

/-- `SessionManager.pause_session`: legal only from `RUNNING`. -/
def pause_session (now : Nat) (s : MState) : Bool × MState :=
  if s.state ≠ .running then (false, s)
  else (true, { s with pause_time := some now, state := .paused })

/-- `SessionManager.resume_session`: legal only from `PAUSED`. -/
def resume_session (s : MState) : Bool × MState :=
  if s.state ≠ .paused then (false, s)
  else (true, { s with pause_time := none, state := .running })

/-- `SessionManager.stop_session`: legal only from `RUNNING` or `PAUSED`;
writes a `Stopped` record carrying `round(elapsed_seconds / 60, 1)`. -/
def stop_session (s : MState) : Bool × MState :=
  if s.state = .running ∨ s.state = .paused then
    (true,
      { s with
        state := .stopped
        log := s.log ++
          [⟨"Stopped", s.session_type, pythonRound1 ((s.elapsed_seconds : ℚ) / 60)⟩] })
  else (false, s)

/-- The early-warning condition checked by `_timer_loop` right after the
increment: the flag is still clear, the remaining time is at most
`notify_early_warning * 60` seconds and still positive. -/
def earlyWarningFires (c : Config) (s : MState) : Bool :=
  !s.early_warning_sent &&
    decide (s.session_duration - (s.elapsed_seconds + 1) ≤ c.notify_early_warning * 60) &&
    decide (0 < s.session_duration - (s.elapsed_seconds + 1))

/-- One pass of the body of `SessionManager._timer_loop` taken while the
state is `RUNNING` (and the loop guard `elapsed_seconds < session_duration`
holds, see the `Step` relation): increments elapsed time by one second and
issues the early-warning notification when `earlyWarningFires`. -/
def tick (c : Config) (s : MState) : MState :=
  let fire := earlyWarningFires c s
  { s with
    elapsed_seconds := s.elapsed_seconds + 1
    early_warning_sent := s.early_warning_sent || fire
    early_warnings := s.early_warnings + (if fire then 1 else 0) }

/-- `SessionManager._complete_session` (run by `_timer_loop` after its loop
exits with `elapsed_seconds >= session_duration` and no stop request):
transitions to `COMPLETED`, bumps the counters (the completed-work counter
only for Work sessions) and writes a `Completed` record carrying
`session_duration // 60`. -/
def complete_session (s : MState) : MState :=
  { s with
    state := .completed
    session_count := s.session_count + 1
    completed_work_sessions :=
      s.completed_work_sessions + (if s.session_type = .work then 1 else 0)
    log := s.log ++ [⟨"Completed", s.session_type, ((s.session_duration / 60 : Nat) : ℚ)⟩] }

/-- The candidate next session type computed by
`SessionManager._suggest_next_session` (the same expression decides both
the auto-start and the suggestion-only branches).  It reads the
completed-work counter as already updated by `_complete_session`.  For a
non-Work session the candidate is Work.  Python raises on a zero
`long_break_interval`; theorems about this definition assume the interval
is positive. -/
def candidate_next_type (c : Config) (s : MState) : SessionType :=
  if s.session_type = .work then
    if s.completed_work_sessions % c.long_break_interval = 0 then .long_break
    else .short_break
  else .work

/-- Labels for the operations a caller (or the timer thread) can perform. -/
inductive Op where
  | opStart (ty : SessionType) (dm : Option Nat) (now : Nat)
  | opPause (now : Nat)
  | opResume
  | opStop
  | opTick
  | opComplete

/-- One step of the session manager.  `start`, `pause`, `resume` and `stop`
may always be requested (an illegal request is a no-op by the definitions
above).  `tick` is a pass of the timer-loop body with the loop guard true
and the state `RUNNING`; `complete` is the loop-exit completion, possible
once `elapsed_seconds` has reached `session_duration` while no stop was
requested (the state is then `RUNNING`, or `PAUSED` when the user paused
after the final increment). -/
inductive Step (c : Config) : Op → MState → MState → Prop where
  | start : ∀ ty dm now s, Step c (.opStart ty dm now) s (start_session c ty dm now s).2
  | pause : ∀ now s, Step c (.opPause now) s (pause_session now s).2
  | resume : ∀ s, Step c .opResume s (resume_session s).2
  | stop : ∀ s, Step c .opStop s (stop_session s).2
  | tick : ∀ s, s.state = .running → s.elapsed_seconds < s.session_duration →
      Step c .opTick s (tick c s)
  | complete : ∀ s, (s.state = .running ∨ s.state = .paused) →
      s.session_duration ≤ s.elapsed_seconds →
      Step c .opComplete s (complete_session s)

/-- States reachable from the freshly constructed manager by any sequence
of operations and ticks. -/
inductive Reach (c : Config) : MState → Prop where
  | init : Reach c initState
  | step : ∀ {s s' op}, Reach c s → Step c op s s' → Reach c s'

/-- A concrete reachable paused state: start a 25-minute work session at
instant 0, tick once, pause at instant 1. -/
def pausedState : MState :=
  (pause_session 1 (tick defaultConfig
    (start_session defaultConfig .work (some 25) 0 initState).2)).2

/-- A concrete running state: start a 25-minute work session at instant 0. -/
def runningState : MState :=
  (start_session defaultConfig .work (some 25) 0 initState).2

theorem runningState_reachable : Reach defaultConfig runningState :=
  Reach.init.step (Step.start .work (some 25) 0 initState)

theorem pausedState_reachable : Reach defaultConfig pausedState := by
  have h2 : Reach defaultConfig (tick defaultConfig runningState) :=
    runningState_reachable.step (Step.tick runningState (by decide) (by decide))
  exact h2.step (Step.pause 1 (tick defaultConfig runningState))

/-! ## Claim C3: Start while Running is a failure leaving everything unchanged -/

/-- C3: while a session is `RUNNING`, a `Start` request returns failure and
returns the state entirely unchanged — every session field (type, duration,
elapsed, state, start and pause instants, both counters) keeps its value
and the log gains no entry, because `start_session` returns `False` before
any mutation. -/
theorem start_while_running_noop (c : Config) (ty : SessionType) (dm : Option Nat)
    (now : Nat) (s : MState) (h : s.state = .running) :
    start_session c ty dm now s = (false, s) := by
  simp [start_session, h]

theorem start_while_running_noop_witness :
    start_session defaultConfig .short_break none 3 runningState = (false, runningState) :=
  start_while_running_noop defaultConfig .short_break none 3 runningState (by decide)

/-! ## Claim C2: in which states is Start rejected -/

/-- C2 counterexample: the claim says a `Start` request is rejected in
every state other than `READY`; but from the reachable `PAUSED` state,
`start_session` returns success, switches the state to `RUNNING` and
appends a `Started` record, because the code only rejects `RUNNING`. -/
theorem start_only_in_ready_counterexample :
    pausedState.state = .paused ∧
    (start_session defaultConfig .work (some 25) 2 pausedState).1 = true ∧
    (start_session defaultConfig .work (some 25) 2 pausedState).2.state = .running ∧
    (start_session defaultConfig .work (some 25) 2 pausedState).2.log.length =
      pausedState.log.length + 1 := by
  refine ⟨by decide, by decide, by decide, ?_⟩
  decide

/-- C2 amended: a `Start` request is rejected (as a no-op returning
failure, with no state mutation and no log write) exactly when the state is
`RUNNING`; from every other state (`READY`, `PAUSED`, `COMPLETED`,
`STOPPED`) it succeeds and moves the machine to `RUNNING`. -/
theorem start_rejected_iff_running (c : Config) (ty : SessionType) (dm : Option Nat)
    (now : Nat) (s : MState) :
    ((start_session c ty dm now s).1 = false ↔ s.state = .running) ∧
    (s.state = .running → start_session c ty dm now s = (false, s)) ∧
    (s.state ≠ .running → (start_session c ty dm now s).1 = true ∧
      (start_session c ty dm now s).2.state = .running) := by
  by_cases h : s.state = .running <;> simp [start_session, h]

theorem start_rejected_iff_running_witness :
    (start_session defaultConfig .work (some 25) 2 pausedState).1 = true ∧
    (start_session defaultConfig .work (some 25) 2 pausedState).2.state = .running :=
  (start_rejected_iff_running defaultConfig .work (some 25) 2 pausedState).2.2 (by decide)

/-! ## Claim C8: illegal Pause, Resume and Stop requests are no-ops -/

/-- C8: a `Pause` request in any state other than `RUNNING`, a `Resume`
request in any state other than `PAUSED`, and a `Stop` request in any state
other than `RUNNING` or `PAUSED`, each return a failure indicator and the
unchanged state — so no session field is mutated and no log record is
written. -/
theorem illegal_transitions_noop (now : Nat) (s : MState) :
    (s.state ≠ .running → pause_session now s = (false, s)) ∧
    (s.state ≠ .paused → resume_session s = (false, s)) ∧
    (s.state ≠ .running ∧ s.state ≠ .paused → stop_session s = (false, s)) :=
  ⟨fun h => by simp [pause_session, h],
   fun h => by simp [resume_session, h],
   fun h => by simp [stop_session, h.1, h.2]⟩

theorem illegal_transitions_noop_witness :
    pause_session 7 initState = (false, initState) ∧
    resume_session initState = (false, initState) ∧
    stop_session initState = (false, initState) :=
  ⟨(illegal_transitions_noop 7 initState).1 (by decide),
   (illegal_transitions_noop 7 initState).2.1 (by decide),
   (illegal_transitions_noop 7 initState).2.2 ⟨by decide, by decide⟩⟩

/-! ## Claim C1: elapsed-time bounds and monotonicity -/

/-- C1: in every reachable state of the session manager,
`0 ≤ elapsed_seconds ≤ session_duration`; moreover any single step either
leaves `elapsed_seconds` unchanged, or increments it by exactly one while
the state is `RUNNING` (a tick), or resets it to `0` as part of a `Start`
request that begins a new session — so within one session elapsed time
never decreases and only ticks taken while `RUNNING` increase it. -/
theorem elapsed_bounds_invariant (c : Config) (s : MState) (h : Reach c s) :
    (0 ≤ s.elapsed_seconds ∧ s.elapsed_seconds ≤ s.session_duration) ∧
    (∀ op s', Step c op s s' →
      s'.elapsed_seconds = s.elapsed_seconds ∨
      (s.state = .running ∧ s'.elapsed_seconds = s.elapsed_seconds + 1) ∨
      (s'.elapsed_seconds = 0 ∧ ∃ ty dm now, op = Op.opStart ty dm now)) := by
  constructor
  · refine ⟨Nat.zero_le _, ?_⟩
    induction h with
    | init => exact Nat.le_refl 0
    | @step t t' op hr hstep ih =>
      cases hstep with
      | start ty dm now _ =>
        by_cases h1 : t.state = .running
        · simpa [start_session, h1] using ih
        · simp [start_session, h1]
      | pause now _ =>
        by_cases h1 : t.state = .running
        · simpa [pause_session, h1] using ih
        · simpa [pause_session, h1] using ih
      | resume _ =>
        by_cases h1 : t.state = .paused
        · simpa [resume_session, h1] using ih
        · simpa [resume_session, h1] using ih
      | stop _ =>
        by_cases h1 : t.state = .running ∨ t.state = .paused
        · simpa [stop_session, h1] using ih
        · simpa [stop_session, h1] using ih
      | tick _ hrun hlt =>
        simpa [tick] using hlt
      | complete _ hst hge =>
        simpa [complete_session] using ih
  · intro op s' hstep
    cases hstep with
    | start ty dm now _ =>
      by_cases h1 : s.state = .running
      · exact Or.inl (by simp [start_session, h1])
      · exact Or.inr (Or.inr ⟨by simp [start_session, h1], ty, dm, now, rfl⟩)
    | pause now _ =>
      by_cases h1 : s.state = .running <;>
        exact Or.inl (by simp [pause_session, h1])
    | resume _ =>
      by_cases h1 : s.state = .paused <;>
        exact Or.inl (by simp [resume_session, h1])
    | stop _ =>
      by_cases h1 : s.state = .running ∨ s.state = .paused <;>
        exact Or.inl (by simp [stop_session, h1])
    | tick _ hrun hlt =>
      exact Or.inr (Or.inl ⟨hrun, by simp [tick]⟩)
    | complete _ hst hge =>
      exact Or.inl (by simp [complete_session])

theorem elapsed_bounds_invariant_witness :
    pausedState.elapsed_seconds ≤ pausedState.session_duration :=
  (elapsed_bounds_invariant defaultConfig pausedState pausedState_reachable).1.2

/-! ## Claim C9: the early warning fires at most once per session -/

/-- C9: within a single session the early-warning notification is issued at
most once, at the first tick whose post-increment remaining time is at most
the configured threshold (`notify_early_warning * 60` seconds, default two
minutes) while still positive.  Formally: in every reachable state the
number of warnings issued since the session started is at most one and
matches the `early_warning_sent` flag, and a tick issues a warning exactly
when the flag is still clear and the remaining time satisfies the threshold
condition — so once a warning has been issued no later tick of the same
session can issue another. -/
theorem early_warning_at_most_once (c : Config) (s : MState) (h : Reach c s) :
    (s.early_warnings ≤ 1 ∧ (s.early_warning_sent = true ↔ s.early_warnings = 1)) ∧
    ((tick c s).early_warnings = s.early_warnings + 1 ↔
      (s.early_warning_sent = false ∧
       s.session_duration - (s.elapsed_seconds + 1) ≤ c.notify_early_warning * 60 ∧
       0 < s.session_duration - (s.elapsed_seconds + 1))) ∧
    ((tick c s).early_warnings = s.early_warnings ∨
     (tick c s).early_warnings = s.early_warnings + 1) := by
  have char : ∀ t : MState, earlyWarningFires c t = true ↔
      (t.early_warning_sent = false ∧
       t.session_duration - (t.elapsed_seconds + 1) ≤ c.notify_early_warning * 60 ∧
       0 < t.session_duration - (t.elapsed_seconds + 1)) := by
    intro t
    simp [earlyWarningFires, and_assoc]
  refine ⟨?_, ?_, ?_⟩
  · induction h with
    | init => simp [initState]
    | @step t t' op hr hstep ih =>
      cases hstep with
      | start ty dm now _ =>
        by_cases h1 : t.state = .running
        · simpa [start_session, h1] using ih
        · simp [start_session, h1]
      | pause now _ =>
        by_cases h1 : t.state = .running
        · simpa [pause_session, h1] using ih
        · simpa [pause_session, h1] using ih
      | resume _ =>
        by_cases h1 : t.state = .paused
        · simpa [resume_session, h1] using ih
        · simpa [resume_session, h1] using ih
      | stop _ =>
        by_cases h1 : t.state = .running ∨ t.state = .paused
        · simpa [stop_session, h1] using ih
        · simpa [stop_session, h1] using ih
      | tick _ hrun hlt =>
        cases hf : earlyWarningFires c t with
        | false => simpa [tick, hf] using ih
        | true =>
          have hsent : t.early_warning_sent = false := ((char t).mp hf).1
          have hcnt : t.early_warnings = 0 := by
            have h2 := ih.1
            have h3 : ¬ t.early_warnings = 1 := fun he => by
              simp [ih.2.mpr he] at hsent
            omega
          simp [tick, hf, hsent, hcnt]
      | complete _ hst hge =>
        simpa [complete_session] using ih
  · cases hf : earlyWarningFires c s with
    | false =>
      constructor
      · intro hcontra
        exfalso
        simp [tick, hf] at hcontra
      · intro hcond
        exact absurd ((char s).mpr hcond) (by simp [hf])
    | true =>
      simp [tick, hf, (char s).mp hf]
  · cases hf : earlyWarningFires c s with
    | false => exact Or.inl (by simp [tick, hf])
    | true => exact Or.inr (by simp [tick, hf])

theorem early_warning_at_most_once_witness :
    runningState.early_warnings ≤ 1 :=
  (early_warning_at_most_once defaultConfig runningState runningState_reachable).1.1

/-! ## Claim C6: candidate next session type after a Work completion -/

/-- The state of a work session about to complete its `(n + 1)`-th Work
session: the completed-work counter still reads `n`. -/
def workStateAfter (n : Nat) : MState :=
  { initState with session_type := .work, completed_work_sessions := n }

/-- C6: completing a Work session increments the completed-work counter,
and the candidate next type computed by `_suggest_next_session` on the
updated counter is `LongBreak` exactly when the counter is divisible by the
configured `long_break_interval`, `ShortBreak` otherwise; with the default
interval of four, the fourth Work completion yields `LongBreak` and the
first three yield `ShortBreak`. -/
theorem next_after_work_completion (c : Config) (s : MState) :
    (s.session_type = .work →
      (complete_session s).completed_work_sessions = s.completed_work_sessions + 1 ∧
      (0 < c.long_break_interval →
        (candidate_next_type c (complete_session s) = .long_break ↔
          (s.completed_work_sessions + 1) % c.long_break_interval = 0) ∧
        (candidate_next_type c (complete_session s) = .long_break ∨
          candidate_next_type c (complete_session s) = .short_break))) ∧
    candidate_next_type defaultConfig (complete_session (workStateAfter 3)) = .long_break ∧
    candidate_next_type defaultConfig (complete_session (workStateAfter 0)) = .short_break ∧
    candidate_next_type defaultConfig (complete_session (workStateAfter 1)) = .short_break ∧
    candidate_next_type defaultConfig (complete_session (workStateAfter 2)) = .short_break := by
  refine ⟨?_, by decide, by decide, by decide, by decide⟩
  intro hw
  refine ⟨by simp [complete_session, hw], ?_⟩
  intro hI
  constructor
  · by_cases hm : (s.completed_work_sessions + 1) % c.long_break_interval = 0 <;>
      simp [candidate_next_type, complete_session, hw, hm]
  · by_cases hm : (s.completed_work_sessions + 1) % c.long_break_interval = 0 <;>
      simp [candidate_next_type, complete_session, hw, hm]

theorem next_after_work_completion_witness :
    (complete_session (workStateAfter 3)).completed_work_sessions = 4 :=
  ((next_after_work_completion defaultConfig (workStateAfter 3)).1 (by decide)).1

/-! ## The session analyzer (`dashboard.py`) -/

/-- One record produced by `SessionAnalyzer.load_session_data`
(`SessionData` dataclass of `dashboard.py`): the matched action word, the
session type word, the integer duration in minutes and the calendar date
(modelled as a day number). -/
structure SessionData where
  action : String
  session_type : String
  duration : Nat
  date : Int
deriving DecidableEq, Repr

/-- `completed_sessions` of `SessionAnalyzer.calculate_stats`: the records
whose action is `Completed`. -/
def completed_sessions (sessions : List SessionData) : List SessionData :=
  sessions.filter (fun s => s.action = "Completed")

/-- `work_sessions` of `calculate_stats`: completed records whose session
type is `work`. -/
def work_sessions (sessions : List SessionData) : List SessionData :=
  (completed_sessions sessions).filter (fun s => s.session_type = "work")

/-- `break_sessions` of `calculate_stats`: completed records whose session
type is `short_break` or `long_break` (note: not "everything that is not
work"). -/
def break_sessions (sessions : List SessionData) : List SessionData :=
  (completed_sessions sessions).filter
    (fun s => s.session_type = "short_break" ∨ s.session_type = "long_break")

/-- The calendar dates of the completed records, in record order. -/
def datesOf (sessions : List SessionData) : List Int :=
  (completed_sessions sessions).map (fun s => s.date)

/-- `sorted(set(dates), reverse=True)` of `_calculate_streak`: the distinct
completed dates sorted descending. -/
def sortedDatesDesc (sessions : List SessionData) : List Int :=
  List.insertionSort (· ≥ ·) (datesOf sessions).dedup

/-- The `for date in dates[1:]` loop of `_calculate_streak`: counts the
immediately preceding consecutive calendar days before the first gap. -/
def streakLoop : Int → List Int → Nat
  | _, [] => 0
  | prev, d :: ds => if prev - d = 1 then 1 + streakLoop d ds else 0

/-- `SessionAnalyzer._calculate_streak`, with `today` supplied explicitly
(the Python code reads `datetime.now().date()`). -/
def calculate_streak (today : Int) (sessions : List SessionData) : Nat :=
  if sessions = [] then 0
  else
    match sortedDatesDesc sessions with
    | [] => 0
    | d :: ds => if d = today ∨ d = today - 1 then 1 + streakLoop d ds else 0

/-- The fields of the statistics dictionary built by
`SessionAnalyzer.calculate_stats` that the claims are about.  The work
ratio is called `work_ratio_pct` here (the value is a percentage). -/
structure Stats where
  total_sessions : Nat
  work_sessions : Nat
  break_sessions : Nat
  total_work_time : Nat
  total_break_time : Nat
  work_ratio_pct : ℚ
  days_active : Nat
  streak_days : Nat
deriving DecidableEq, Repr

/-- `SessionAnalyzer.calculate_stats`, with `today` supplied explicitly
(it is only consumed by the streak computation). -/
def calculate_stats (today : Int) (sessions : List SessionData) : Stats :=
  let completed := completed_sessions sessions
  let work := work_sessions sessions
  let brk := break_sessions sessions
  { total_sessions := completed.length
    work_sessions := work.length
    break_sessions := brk.length
    total_work_time := (work.map (fun s => s.duration)).sum
    total_break_time := (brk.map (fun s => s.duration)).sum
    work_ratio_pct :=
      if completed.length = 0 then 0
      else pythonRound1 ((work.length : ℚ) / (completed.length : ℚ) * 100)
    days_active := ((completed.map (fun s => s.date)).dedup).length
    streak_days := calculate_streak today sessions }

/-! ## Claim C7: the partition made by `calculate_stats` -/

/-- A completed record of session type `custom`, reachable through the log
pipeline because `start_session` accepts `SessionType.CUSTOM` and the
parsing pattern matches the word `custom`. -/
def customRec : SessionData := ⟨"Completed", "custom", 10, 0⟩

/-- C7 counterexample: the claim says `breakSessions` are all completed
records that are not work; but on a completed `custom` record
`break_sessions` is empty while the non-work rest of the completed records
is not — the filter only admits `short_break` and `long_break`. -/
theorem break_sessions_not_rest_counterexample :
    completed_sessions [customRec] = [customRec] ∧
    break_sessions [customRec] = [] ∧
    (completed_sessions [customRec]).filter (fun s => ¬ s.session_type = "work") =
      [customRec] ∧
    break_sessions [customRec] ≠
      (completed_sessions [customRec]).filter (fun s => ¬ s.session_type = "work") := by
  refine ⟨by decide, by decide, by decide, by decide⟩

/-- C7 amended: `calculate_stats` restricts to `Completed` records;
`workSessions` are exactly the completed records with session type `work`,
and `breakSessions` are exactly those with session type `short_break` or
`long_break` (completed records of any other type, e.g. `custom`, land in
neither list); the work ratio is `len(work) / len(completed) * 100` rounded
to one decimal, and `0` when there are no completed records. -/
theorem stats_partition (today : Int) (recs : List SessionData) :
    (∀ r, r ∈ work_sessions recs ↔
      r ∈ completed_sessions recs ∧ r.session_type = "work") ∧
    (∀ r, r ∈ break_sessions recs ↔
      r ∈ completed_sessions recs ∧
        (r.session_type = "short_break" ∨ r.session_type = "long_break")) ∧
    (calculate_stats today recs).work_sessions = (work_sessions recs).length ∧
    (completed_sessions recs = [] → (calculate_stats today recs).work_ratio_pct = 0) ∧
    (completed_sessions recs ≠ [] →
      (calculate_stats today recs).work_ratio_pct =
        pythonRound1
          (((work_sessions recs).length : ℚ) / ((completed_sessions recs).length : ℚ) * 100)) := by
  refine ⟨?_, ?_, rfl, ?_, ?_⟩
  · intro r
    simp [work_sessions, List.mem_filter]
  · intro r
    simp [break_sessions, List.mem_filter]
  · intro h
    simp [calculate_stats, h]
  · intro h
    have hlen : ¬ (completed_sessions recs).length = 0 := by
      simpa [List.length_eq_zero] using h
    simp [calculate_stats, hlen]

theorem stats_partition_witness :
    (calculate_stats 0 []).work_ratio_pct = 0 :=
  (stats_partition 0 []).2.2.2.1 rfl

/-! ## Claim C5: the streak computation -/

theorem sortedDatesDesc_perm (recs : List SessionData) :
    (sortedDatesDesc recs).Perm (datesOf recs).dedup :=
  List.perm_insertionSort _ _

theorem mem_sortedDatesDesc {x : Int} {recs : List SessionData} :
    x ∈ sortedDatesDesc recs ↔ x ∈ datesOf recs := by
  rw [(sortedDatesDesc_perm recs).mem_iff, List.mem_dedup]

theorem sortedDatesDesc_pairwise_gt (recs : List SessionData) :
    (sortedDatesDesc recs).Pairwise (· > ·) := by
  have hs : (sortedDatesDesc recs).Pairwise (· ≥ ·) :=
    List.sorted_insertionSort (· ≥ ·) (datesOf recs).dedup
  have hn : (sortedDatesDesc recs).Pairwise (· ≠ ·) :=
    (sortedDatesDesc_perm recs).nodup_iff.mpr (List.nodup_dedup _)
  exact (hs.and hn).imp fun hab => lt_of_le_of_ne hab.1 (Ne.symm hab.2)

/-- On a strictly descending list headed by `d0`, the streak loop counts
exactly the length of the consecutive run: every day `d0 - i` for
`i ≤ streakLoop d0 l` is in the list, and the day right after the run is
not. -/
theorem streakLoop_run (l : List Int) (d0 : Int)
    (h : (d0 :: l).Pairwise (· > ·)) :
    (∀ i : Nat, i ≤ streakLoop d0 l → d0 - (i : Int) ∈ d0 :: l) ∧
    d0 - ((streakLoop d0 l + 1 : Nat) : Int) ∉ d0 :: l := by
  induction l generalizing d0 with
  | nil =>
    refine ⟨?_, ?_⟩
    · intro i hi
      have hi0 : i = 0 := Nat.le_zero.mp hi
      subst hi0
      simp [streakLoop]
    · simp [streakLoop]
  | cons x xs ih =>
    have hd0x : d0 > x := (List.pairwise_cons.mp h).1 x (List.mem_cons_self x xs)
    have htail : (x :: xs).Pairwise (· > ·) := (List.pairwise_cons.mp h).2
    have hxsall : ∀ y ∈ xs, x > y := (List.pairwise_cons.mp htail).1
    by_cases hx : d0 - x = 1
    · have ihx := ih x htail
      refine ⟨?_, ?_⟩
      · intro i hi
        simp only [streakLoop, if_pos hx] at hi
        match i with
        | 0 => simp
        | Nat.succ j =>
          have hj : j ≤ streakLoop x xs := by omega
          have hmem := ihx.1 j hj
          push_cast
          have heq : d0 - ((j : Int) + 1) = x - (j : Int) := by omega
          rw [heq]
          exact List.mem_cons_of_mem _ hmem
      · simp only [streakLoop, if_pos hx]
        intro hmem
        have heq : d0 - ((1 + streakLoop x xs + 1 : Nat) : Int) =
            x - ((streakLoop x xs + 1 : Nat) : Int) := by
          push_cast
          omega
        rw [heq] at hmem
        rcases List.mem_cons.mp hmem with h1 | h1
        · have : x - ((streakLoop x xs + 1 : Nat) : Int) < d0 := by
            have : (0 : Int) ≤ ((streakLoop x xs + 1 : Nat) : Int) := by positivity
            omega
          omega
        · exact ihx.2 h1
    · refine ⟨?_, ?_⟩
      · intro i hi
        simp only [streakLoop, if_neg hx] at hi
        have hi0 : i = 0 := Nat.le_zero.mp hi
        subst hi0
        simp
      · simp only [streakLoop, if_neg hx]
        intro hmem
        rcases List.mem_cons.mp hmem with h1 | h1
        · omega
        · rcases List.mem_cons.mp h1 with h2 | h2
          · omega
          · have := hxsall _ h2
            omega

/-- Three completed sessions on today, yesterday and the day before
(relative to an example `today` of day 100). -/
def exampleThree : List SessionData :=
  [⟨"Completed", "work", 25, 100⟩, ⟨"Completed", "work", 25, 99⟩,
   ⟨"Completed", "short_break", 5, 98⟩]

/-- Completed sessions on today and three days ago. -/
def exampleGap : List SessionData :=
  [⟨"Completed", "work", 25, 100⟩, ⟨"Completed", "work", 25, 97⟩]

/-- C5: `_calculate_streak` works on the distinct calendar dates of the
`Completed` records sorted descending.  It returns 0 on an empty record
list and whenever the most recent completed date `d0` is neither today nor
yesterday; otherwise the streak `n` is positive, the `n` consecutive days
`d0, d0 - 1, …, d0 - (n - 1)` all carry completed records, and day
`d0 - n` (the first gap) does not.  The spec examples: dates
{today, yesterday, day before} give 3, {today, three days ago} give 1, {}
gives 0. -/
theorem streak_characterisation (today : Int) (recs : List SessionData) :
    (recs = [] → calculate_streak today recs = 0) ∧
    (∀ d0, d0 ∈ datesOf recs → (∀ x ∈ datesOf recs, x ≤ d0) →
      ((d0 ≠ today ∧ d0 ≠ today - 1) → calculate_streak today recs = 0) ∧
      ((d0 = today ∨ d0 = today - 1) →
        0 < calculate_streak today recs ∧
        (∀ i : Nat, i < calculate_streak today recs → d0 - (i : Int) ∈ datesOf recs) ∧
        d0 - ((calculate_streak today recs : Nat) : Int) ∉ datesOf recs)) ∧
    calculate_streak 100 exampleThree = 3 ∧
    calculate_streak 100 exampleGap = 1 ∧
    calculate_streak 100 ([] : List SessionData) = 0 := by
  refine ⟨?_, ?_, by decide, by decide, by decide⟩
  · intro h
    simp [calculate_streak, h]
  · intro d0 hmem hmax
    have hrecs : recs ≠ [] := by
      intro h
      subst h
      simp [datesOf, completed_sessions] at hmem
    obtain ⟨d, tl, hds⟩ : ∃ d tl, sortedDatesDesc recs = d :: tl := by
      cases hsd : sortedDatesDesc recs with
      | nil =>
        exfalso
        have := mem_sortedDatesDesc.mpr hmem
        rw [hsd] at this
        exact absurd this (List.not_mem_nil d0)
      | cons d tl => exact ⟨d, tl, rfl⟩
    have hd : d = d0 := by
      have h1 : d ≤ d0 := by
        refine hmax d (mem_sortedDatesDesc.mp ?_)
        rw [hds]
        exact List.mem_cons_self d tl
      have h2 : d0 ≤ d := by
        have hin : d0 ∈ d :: tl := by
          rw [← hds]
          exact mem_sortedDatesDesc.mpr hmem
        rcases List.mem_cons.mp hin with h3 | h3
        · omega
        · have hpw := sortedDatesDesc_pairwise_gt recs
          rw [hds] at hpw
          have := (List.pairwise_cons.mp hpw).1 d0 h3
          omega
      omega
    subst hd
    have hpw : (d :: tl).Pairwise (· > ·) := by
      have := sortedDatesDesc_pairwise_gt recs
      rwa [hds] at this
    have hmemiff : ∀ x : Int, x ∈ d :: tl ↔ x ∈ datesOf recs := by
      intro x
      rw [← hds]
      exact mem_sortedDatesDesc
    have hrun := streakLoop_run tl d hpw
    have hcs : calculate_streak today recs =
        if d = today ∨ d = today - 1 then 1 + streakLoop d tl else 0 := by
      rw [calculate_streak, if_neg hrecs, hds]
    refine ⟨?_, ?_⟩
    · intro hne
      rw [hcs, if_neg]
      push_neg
      exact hne
    · intro hor
      rw [hcs, if_pos hor]
      refine ⟨by omega, ?_, ?_⟩
      · intro i hi
        have hi' : i ≤ streakLoop d tl := by omega
        exact (hmemiff _).mp (hrun.1 i hi')
      · intro hcon
        have heq : d - ((1 + streakLoop d tl : Nat) : Int) =
            d - ((streakLoop d tl + 1 : Nat) : Int) := by
          push_cast
          omega
        rw [heq] at hcon
        exact hrun.2 ((hmemiff _).mpr hcon)

theorem streak_characterisation_witness :
    0 < calculate_streak 100 exampleThree ∧
    (100 : Int) - ((calculate_streak 100 exampleThree : Nat) : Int) ∉ datesOf exampleThree := by
  have h := ((streak_characterisation 100 exampleThree).2.1 100
    (by decide) (by decide)).2 (Or.inl rfl)
  exact ⟨h.1, h.2.2⟩

/-! ## The log-line format and the parsing pattern

`SessionAnalyzer.load_session_data` matches each line of the log file
against the regular expression

`(\d{4}-\d{2}-\d{2} \d{2}:\d{2}:\d{2}) - (Started|Completed|Paused|Resumed) (\w+) session.*?(\d+) minutes`

using `re.search`.  The model below embeds exactly this pattern: `Tok`
sequences model the fixed parts (`\d` and literal characters), the
alternation tries the four action words in order (their first letters are
pairwise distinct, so no backtracking between alternatives can occur), the
greedy `(\w+)` is maximal munch (any shorter match would have to be
followed by a space, impossible since the next character would be a word
character), and the lazy `.*?(\d+) minutes` is the leftmost position whose
maximal digit run is followed by the literal ` minutes` (shortening the
greedy digit run can never help, since the following character would be a
digit).  `searchParse` tries every start position left to right, as
`re.search` does.  Lines are modelled as `List Char` without the trailing
newline written by the logger (the pattern never reaches it). -/

/-- One atom of the fixed parts of the pattern: a `\d` or a literal
character. -/
inductive Tok where
  | digit
  | lit (c : Char)
deriving DecidableEq, Repr

/-- The token list of a literal string part of the pattern. -/
def litToks (s : List Char) : List Tok := s.map Tok.lit

/-- The tokens of the timestamp group
`\d{4}-\d{2}-\d{2} \d{2}:\d{2}:\d{2}`. -/
def tsToks : List Tok :=
  [.digit, .digit, .digit, .digit, .lit '-', .digit, .digit, .lit '-', .digit, .digit,
   .lit ' ', .digit, .digit, .lit ':', .digit, .digit, .lit ':', .digit, .digit]

/-- Match a token sequence against the front of the input; on success
return the rest of the input. -/
def matchToks : List Tok → List Char → Option (List Char)
  | [], l => some l
  | .digit :: _, [] => none
  | .digit :: ts, c :: cs => if c.isDigit then matchToks ts cs else none
  | .lit _ :: _, [] => none
  | .lit ch :: ts, c :: cs => if c = ch then matchToks ts cs else none

/-- Python `\w` over the alphabet the log lines draw from. -/
def isWordChar (c : Char) : Bool := c.isAlphanum || c = '_'

/-- The four alternatives of the action group, in pattern order. -/
def actionWords : List (List Char) :=
  ["Started".toList, "Completed".toList, "Paused".toList, "Resumed".toList]

/-- Try each alternative word in order; return the word that matched and
the rest of the input. -/
def matchAlt : List (List Char) → List Char → Option (List Char × List Char)
  | [], _ => none
  | w :: ws, l =>
    match matchToks (litToks w) l with
    | some r => some (w, r)
    | none => matchAlt ws l

/-- The numeric value of a digit run (`int(...)` on the captured group). -/
def charsToNat (l : List Char) : Nat := l.foldl (fun a c => 10 * a + (c.toNat - 48)) 0

/-- The lazy tail `.*?(\d+) minutes` of the pattern: the leftmost position
carrying a maximal digit run followed by the literal ` minutes`; returns
the value of that run. -/
def scanDuration : List Char → Option Nat
  | [] => none
  | c :: cs =>
    if c.isDigit then
      match matchToks (litToks " minutes".toList) ((c :: cs).dropWhile Char.isDigit) with
      | some _ => some (charsToNat ((c :: cs).takeWhile Char.isDigit))
      | none => scanDuration cs
    else scanDuration cs

/-- Attempt to match the whole pattern at the current position: timestamp,
` - `, action alternation, a space, the greedy `(\w+)`, ` session`, then
the lazy duration scan.  Returns the action word, the session-type word
and the duration. -/
def matchAt (l : List Char) : Option (String × String × Nat) :=
  match matchToks tsToks l with
  | none => none
  | some r1 =>
    match matchToks (litToks " - ".toList) r1 with
    | none => none
    | some r2 =>
      match matchAlt actionWords r2 with
      | none => none
      | some (act, r3) =>
        match matchToks [.lit ' '] r3 with
        | none => none
        | some r4 =>
          let w := r4.takeWhile isWordChar
          if w = [] then none
          else
            match matchToks (litToks " session".toList) (r4.dropWhile isWordChar) with
            | none => none
            | some r5 =>
              match scanDuration r5 with
              | none => none
              | some dur => some (⟨act⟩, ⟨w⟩, dur)

/-- `re.search`: try the pattern at every start position, leftmost first. -/
def searchParse : List Char → Option (String × String × Nat)
  | [] => none
  | c :: cs =>
    match matchAt (c :: cs) with
    | some r => some r
    | none => searchParse cs

/-- Parse one log line into a `SessionData` record, or skip it.  The
calendar date is derived from the captured timestamp in Python; the claims
that involve dates quantify over records directly, so the model fixes the
date of freshly parsed records to day 0. -/
def parseRecord (l : List Char) : Option SessionData :=
  (searchParse l).map (fun r => ⟨r.1, r.2.1, r.2.2, 0⟩)

/-- `SessionAnalyzer.load_session_data` over the lines of the log file:
keep the parsed records, skip the rest. -/
def load_session_data (lines : List (List Char)) : List SessionData :=
  lines.filterMap parseRecord

/-- The decimal digit characters. -/
def digitChar : Nat → Char
  | 0 => '0'
  | 1 => '1'
  | 2 => '2'
  | 3 => '3'
  | 4 => '4'
  | 5 => '5'
  | 6 => '6'
  | 7 => '7'
  | 8 => '8'
  | _ => '9'

/-- Fuelled decimal rendering (most significant digit first). -/
def natCharsFuel : Nat → Nat → List Char
  | 0, _ => []
  | f + 1, n => if n < 10 then [digitChar n] else natCharsFuel f (n / 10) ++ [digitChar (n % 10)]

/-- Python `str(n)` for a natural number. -/
def natChars (n : Nat) : List Char := natCharsFuel (n + 1) n

/-- Python `str(d)` for an `int`: a minus sign followed by the digits when
negative. -/
def intChars (d : Int) : List Char :=
  if d < 0 then '-' :: natChars d.natAbs else natChars d.toNat

/-- Python `str(round(x, 1))` shape for the elapsed-minutes value written
by `Stop`: integer part, a dot, fractional digits. -/
def floatChars (a b : Nat) : List Char := natChars a ++ '.' :: natChars b

/-- The f-string of `SessionManager._log_session_event` (without its
trailing newline): `{ts} - {event} {type} session ({duration} minutes)`,
with the duration characters supplied by the caller. -/
def logLineWith (ts event ty durChars : List Char) : List Char :=
  ts ++ " - ".toList ++ event ++ [' '] ++ ty ++ " session (".toList ++
    durChars ++ " minutes)".toList

/-- `_log_session_event` for an integer duration (the `Started` and
`Completed` events pass Python ints). -/
def log_session_event (ts : List Char) (event : List Char) (ty : SessionType)
    (d : Int) : List Char :=
  logLineWith ts event ty.value.toList (intChars d)

/-- The line written by `stop_session`: event word `Stopped` and a
one-decimal duration `a.b`. -/
def stopped_log_line (ts : List Char) (ty : SessionType) (a b : Nat) : List Char :=
  logLineWith ts "Stopped".toList ty.value.toList (floatChars a b)

/-- A representative well-formed timestamp. -/
def ts0 : List Char := "2025-01-01 10:00:00".toList

/-! ### Basic matcher lemmas -/

theorem matchToks_append_some {ts : List Tok} {l r : List Char} (t : List Char)
    (h : matchToks ts l = some r) : matchToks ts (l ++ t) = some (r ++ t) := by
  induction ts generalizing l r with
  | nil =>
    simp [matchToks] at h
    subst h
    rfl
  | cons tok ts ih =>
    cases tok with
    | digit =>
      cases l with
      | nil => simp [matchToks] at h
      | cons c cs =>
        by_cases hc : c.isDigit
        · rw [matchToks, if_pos hc] at h
          rw [List.cons_append, matchToks, if_pos hc]
          exact ih h
        · rw [matchToks, if_neg hc] at h
          exact absurd h (by simp)
    | lit ch =>
      cases l with
      | nil => simp [matchToks] at h
      | cons c cs =>
        by_cases hc : c = ch
        · rw [matchToks, if_pos hc] at h
          rw [List.cons_append, matchToks, if_pos hc]
          exact ih h
        · rw [matchToks, if_neg hc] at h
          exact absurd h (by simp)

theorem matchToks_litToks_self (w : List Char) (r : List Char) :
    matchToks (litToks w) (w ++ r) = some r := by
  induction w with
  | nil => rfl
  | cons c cs ih =>
    rw [litToks, List.map_cons, List.cons_append, matchToks, if_pos rfl]
    exact ih

theorem matchToks_split (ts1 ts2 : List Tok) (l : List Char) :
    matchToks (ts1 ++ ts2) l =
      match matchToks ts1 l with
      | none => none
      | some r => matchToks ts2 r := by
  induction ts1 generalizing l with
  | nil => rfl
  | cons tok ts ih =>
    cases tok with
    | digit =>
      cases l with
      | nil => rfl
      | cons c cs =>
        by_cases hc : c.isDigit
        · rw [List.cons_append, matchToks, if_pos hc, matchToks, if_pos hc]
          exact ih cs
        · rw [List.cons_append, matchToks, if_neg hc, matchToks, if_neg hc]
    | lit ch =>
      cases l with
      | nil => rfl
      | cons c cs =>
        by_cases hc : c = ch
        · rw [List.cons_append, matchToks, if_pos hc, matchToks, if_pos hc]
          exact ih cs
        · rw [List.cons_append, matchToks, if_neg hc, matchToks, if_neg hc]

theorem matchToks_append_none {ts : List Tok} {l : List Char} (t : List Char)
    (hlen : ts.length ≤ l.length) (h : matchToks ts l = none) :
    matchToks ts (l ++ t) = none := by
  induction ts generalizing l with
  | nil => simp [matchToks] at h
  | cons tok ts ih =>
    cases l with
    | nil => simp at hlen
    | cons c cs =>
      cases tok with
      | digit =>
        by_cases hc : c.isDigit
        · rw [matchToks, if_pos hc] at h
          rw [List.cons_append, matchToks, if_pos hc]
          exact ih (by simpa using hlen) h
        · rw [List.cons_append, matchToks, if_neg hc]
      | lit ch =>
        by_cases hc : c = ch
        · rw [matchToks, if_pos hc] at h
          rw [List.cons_append, matchToks, if_pos hc]
          exact ih (by simpa using hlen) h
        · rw [List.cons_append, matchToks, if_neg hc]

theorem matchToks_lit_mem {ch : Char} {ts : List Tok} {l r : List Char}
    (hts : Tok.lit ch ∈ ts) (h : matchToks ts l = some r) : ch ∈ l := by
  induction ts generalizing l r with
  | nil => simp at hts
  | cons tok ts ih =>
    cases l with
    | nil =>
      cases tok <;> simp [matchToks] at h
    | cons c cs =>
      cases tok with
      | digit =>
        by_cases hc : c.isDigit
        · rw [matchToks, if_pos hc] at h
          have : Tok.lit ch ∈ ts := by
            rcases List.mem_cons.mp hts with h1 | h1
            · exact absurd h1 (by simp)
            · exact h1
          exact List.mem_cons_of_mem _ (ih this h)
        · rw [matchToks, if_neg hc] at h
          exact absurd h (by simp)
      | lit ch2 =>
        by_cases hc : c = ch2
        · rw [matchToks, if_pos hc] at h
          rcases List.mem_cons.mp hts with h1 | h1
          · have : ch2 = ch := by
              injection h1.symm
            subst this
            subst hc
            exact List.mem_cons_self _ _
          · exact List.mem_cons_of_mem _ (ih h1 h)
        · rw [matchToks, if_neg hc] at h
          exact absurd h (by simp)

theorem matchAt_none_of_ts_fail {l : List Char}
    (h : matchToks tsToks l = none) : matchAt l = none := by
  rw [matchAt, h]

theorem matchAt_dash {l : List Char} (h : matchAt l ≠ none) : '-' ∈ l := by
  rcases hts : matchToks tsToks l with _ | r
  · exact absurd (matchAt_none_of_ts_fail hts) h
  · exact matchToks_lit_mem (by decide) hts

theorem searchParse_cons_none {c : Char} {cs : List Char}
    (h : matchAt (c :: cs) = none) : searchParse (c :: cs) = searchParse cs := by
  rw [searchParse, h]

theorem searchParse_of_matchAt {l : List Char} {r : String × String × Nat}
    (h : matchAt l = some r) : searchParse l = some r := by
  cases l with
  | nil =>
    rw [show matchAt [] = none from rfl] at h
    exact absurd h (by simp)
  | cons c cs =>
    rw [searchParse, h]

theorem searchParse_no_dash {l : List Char} (h : '-' ∉ l) :
    searchParse l = none := by
  induction l with
  | nil => rfl
  | cons c cs ih =>
    have hm : matchAt (c :: cs) = none := by
      by_contra hne
      exact h (matchAt_dash hne)
    rw [searchParse_cons_none hm]
    exact ih fun hmem => h (List.mem_cons_of_mem _ hmem)

theorem matchTimestamp_early_fail (k : Nat) (Q B : List Char)
    (hk : (tsToks.take k).length ≤ Q.length)
    (hfail : matchToks (tsToks.take k) Q = none) :
    matchToks tsToks (Q ++ B) = none := by
  have hsplit : tsToks = tsToks.take k ++ tsToks.drop k :=
    (List.take_append_drop k tsToks).symm
  rw [hsplit, matchToks_split, matchToks_append_none B hk hfail]

/-! ### Decimal rendering round-trip -/

theorem digitChar_isDigit (n : Nat) : (digitChar n).isDigit = true := by
  rcases n with _ | _ | _ | _ | _ | _ | _ | _ | _ | n <;> rfl

theorem digitChar_toNat (n : Nat) (h : n < 10) : (digitChar n).toNat - 48 = n := by
  interval_cases n <;> rfl

theorem charsToNat_append_digit (l : List Char) (c : Char) :
    charsToNat (l ++ [c]) = 10 * charsToNat l + (c.toNat - 48) := by
  rw [charsToNat, List.foldl_append]
  rfl

theorem natCharsFuel_spec (f : Nat) : ∀ n, n < f →
    charsToNat (natCharsFuel f n) = n ∧
    (∀ c ∈ natCharsFuel f n, c.isDigit = true) ∧
    natCharsFuel f n ≠ [] := by
  induction f with
  | zero =>
    intro n hn
    omega
  | succ f ih =>
    intro n hn
    by_cases h10 : n < 10
    · rw [natCharsFuel, if_pos h10]
      refine ⟨?_, ?_, by simp⟩
      · rw [show [digitChar n] = [] ++ [digitChar n] from rfl, charsToNat_append_digit]
        rw [digitChar_toNat n h10, show charsToNat [] = 0 from rfl]
        omega
      · intro c hc
        rw [List.mem_singleton] at hc
        subst hc
        exact digitChar_isDigit n
    · have hdiv : n / 10 < f := by
        have h1 : n / 10 < n := Nat.div_lt_self (by omega) (by omega)
        omega
      obtain ⟨ih1, ih2, ih3⟩ := ih (n / 10) hdiv
      rw [natCharsFuel, if_neg h10]
      refine ⟨?_, ?_, by simp [ih3]⟩
      · rw [charsToNat_append_digit, ih1, digitChar_toNat _ (Nat.mod_lt n (by omega))]
        omega
      · intro c hc
        rcases List.mem_append.mp hc with h1 | h1
        · exact ih2 c h1
        · rw [List.mem_singleton] at h1
          subst h1
          exact digitChar_isDigit _

theorem charsToNat_natChars (n : Nat) : charsToNat (natChars n) = n :=
  (natCharsFuel_spec (n + 1) n (Nat.lt_succ_self n)).1

theorem natChars_digits {n : Nat} : ∀ c ∈ natChars n, c.isDigit = true :=
  (natCharsFuel_spec (n + 1) n (Nat.lt_succ_self n)).2.1

theorem natChars_ne_nil (n : Nat) : natChars n ≠ [] :=
  (natCharsFuel_spec (n + 1) n (Nat.lt_succ_self n)).2.2

theorem isDigit_ne_dash {c : Char} (h : c.isDigit = true) : c ≠ '-' := by
  intro hc
  subst hc
  exact absurd h (by decide)

theorem isDigit_ne_dot {c : Char} (h : c.isDigit = true) : c ≠ '.' := by
  intro hc
  subst hc
  exact absurd h (by decide)

theorem intChars_ofNat (n : Nat) : intChars (n : Int) = natChars n := by
  rw [intChars, if_neg (by omega)]
  simp

/-! ### Maximal munch on a clean prefix -/

theorem takeWhile_dropWhile_append {p : Char → Bool} {xs : List Char} {y : Char}
    (t : List Char) (hxs : ∀ c ∈ xs, p c = true) (hy : p y = false) :
    (xs ++ y :: t).takeWhile p = xs ∧ (xs ++ y :: t).dropWhile p = y :: t := by
  induction xs with
  | nil =>
    simp [List.takeWhile, List.dropWhile, hy]
  | cons c cs ih =>
    have hc : p c = true := hxs c (List.mem_cons_self c cs)
    have := ih fun d hd => hxs d (List.mem_cons_of_mem c hd)
    simp [List.takeWhile, List.dropWhile, hc, this.1, this.2]

theorem scanDuration_skip {c : Char} (cs : List Char) (h : c.isDigit = false) :
    scanDuration (c :: cs) = scanDuration cs := by
  rw [scanDuration, if_neg (by simp [h])]

theorem scanDuration_found (xs : List Char) (y : Char) (t r : List Char)
    (hxs : ∀ c ∈ xs, c.isDigit = true) (hne : xs ≠ []) (hy : y.isDigit = false)
    (hmt : matchToks (litToks " minutes".toList) (y :: t) = some r) :
    scanDuration (xs ++ y :: t) = some (charsToNat xs) := by
  obtain ⟨c, cs, rfl⟩ : ∃ c cs, xs = c :: cs := by
    cases xs with
    | nil => exact absurd rfl hne
    | cons c cs => exact ⟨c, cs, rfl⟩
  have hc : c.isDigit = true := hxs c (List.mem_cons_self c cs)
  have htw := takeWhile_dropWhile_append (p := Char.isDigit) t hxs hy
  have hdw : (c :: (cs ++ y :: t)).dropWhile Char.isDigit = y :: t := by
    have h2 := htw.2
    rwa [List.cons_append] at h2
  have htk : (c :: (cs ++ y :: t)).takeWhile Char.isDigit = c :: cs := by
    have h1 := htw.1
    rwa [List.cons_append] at h1
  rw [List.cons_append]
  simp only [scanDuration, hc, if_true, hdw, htk, hmt]

theorem scanDuration_digits (D : Nat) :
    scanDuration (natChars D ++ " minutes)".toList) = some D := by
  have hmt : matchToks (litToks " minutes".toList) (' ' :: "minutes)".toList) =
      some [')'] :=
    matchToks_litToks_self " minutes".toList [')']
  have h := scanDuration_found (natChars D) ' ' ("minutes)".toList) [')']
    natChars_digits (natChars_ne_nil D) (by decide) hmt
  rw [charsToNat_natChars] at h
  exact h

/-! ### Parsing a `Completed work` line -/

theorem matchAt_completed_work (ts : List Char) (hts : matchToks tsToks ts = some [])
    (D : Nat) :
    matchAt (logLineWith ts "Completed".toList "work".toList (natChars D)) =
      some ("Completed", "work", D) := by
  rw [logLineWith]
  simp only [List.append_assoc]
  set Z := natChars D ++ " minutes)".toList with hZ
  set X5 := " session (".toList ++ Z with hX5
  set X4 := "work".toList ++ X5 with hX4
  set X3 := [' '] ++ X4 with hX3
  set X2 := "Completed".toList ++ X3 with hX2
  set X := " - ".toList ++ X2 with hX
  have h1 : matchToks tsToks (ts ++ X) = some X := by
    simpa using matchToks_append_some (t := X) hts
  have h2 : matchToks (litToks " - ".toList) X = some X2 := by
    rw [hX]
    exact matchToks_litToks_self " - ".toList X2
  have hStarted : matchToks (litToks "Started".toList) ("Completed".toList ++ X3) = none :=
    rfl
  have h3 : matchAlt actionWords X2 = some ("Completed".toList, X3) := by
    rw [hX2]
    simp only [actionWords, matchAlt, hStarted, matchToks_litToks_self]
  have h4 : matchToks [Tok.lit ' '] X3 = some X4 := by
    rw [hX3]
    rfl
  have hwd : ∀ c ∈ "work".toList, isWordChar c = true := by decide
  have hsp : isWordChar ' ' = false := by decide
  have htw := takeWhile_dropWhile_append (p := isWordChar)
    ("session (".toList ++ Z) hwd hsp
  have htk : X4.takeWhile isWordChar = "work".toList := by
    rw [hX4, hX5]
    exact htw.1
  have hdw : X4.dropWhile isWordChar = ' ' :: ("session (".toList ++ Z) := by
    rw [hX4, hX5]
    exact htw.2
  have hwne : ("work".toList = ([] : List Char)) = False :=
    eq_false (by decide)
  have h7 : matchToks (litToks " session".toList) (' ' :: ("session (".toList ++ Z)) =
      some (" (".toList ++ Z) :=
    matchToks_litToks_self " session".toList (" (".toList ++ Z)
  have h8 : scanDuration (" (".toList ++ Z) = some D := by
    have ha : scanDuration (' ' :: '(' :: Z) = scanDuration ('(' :: Z) :=
      scanDuration_skip _ (by decide)
    have hb : scanDuration ('(' :: Z) = scanDuration Z :=
      scanDuration_skip _ (by decide)
    have hc : scanDuration Z = some D := by
      rw [hZ]
      exact scanDuration_digits D
    exact ha.trans (hb.trans hc)
  simp only [matchAt, h1, h2, h3, h4, htk, hdw, hwne, h7, h8]
  rfl

theorem searchParse_completed_work (ts : List Char)
    (hts : matchToks tsToks ts = some []) (D : Nat) :
    searchParse (logLineWith ts "Completed".toList "work".toList (natChars D)) =
      some ("Completed", "work", D) :=
  searchParse_of_matchAt (matchAt_completed_work ts hts D)

/-! ## Claim C4: logger-to-analyzer round trip -/

theorem filterMap_replicate_some {α β : Type} (f : α → Option β) (a : α) (b : β)
    (h : f a = some b) (n : Nat) :
    List.filterMap f (List.replicate n a) = List.replicate n b := by
  induction n with
  | zero => rfl
  | succ n ih =>
    rw [List.replicate_succ, List.filterMap_cons, h, List.replicate_succ, ih]

theorem filter_replicate_pos {α : Type} {p : α → Bool} {a : α} (h : p a = true)
    (n : Nat) : (List.replicate n a).filter p = List.replicate n a := by
  induction n with
  | zero => rfl
  | succ n ih =>
    rw [List.replicate_succ, List.filter_cons, if_pos h, ih]

/-- C4 amended: for every `N ≥ 0` and every nonnegative integer duration
`D`, writing `N` `Completed` work lines of duration `D` minutes with the
event logger and loading them with the analyzer yields exactly `N` work
sessions totalling `N * D` work minutes.  (For negative `D` the claim
fails, see the counterexample: the parsing pattern drops the minus
sign.) -/
theorem log_completed_roundtrip (N D : Nat) (ts : List Char)
    (hts : matchToks tsToks ts = some []) :
    (calculate_stats 0 (load_session_data
      (List.replicate N (log_session_event ts "Completed".toList .work
        ((D : Nat) : Int))))).work_sessions = N ∧
    (calculate_stats 0 (load_session_data
      (List.replicate N (log_session_event ts "Completed".toList .work
        ((D : Nat) : Int))))).total_work_time = N * D := by
  have hline : parseRecord (log_session_event ts "Completed".toList .work
      ((D : Nat) : Int)) = some ⟨"Completed", "work", D, 0⟩ := by
    rw [log_session_event, intChars_ofNat]
    rw [show (SessionType.value .work).toList = "work".toList from rfl]
    rw [parseRecord, searchParse_completed_work ts hts D]
    rfl
  have hrecs : load_session_data (List.replicate N (log_session_event ts
      "Completed".toList .work ((D : Nat) : Int))) =
      List.replicate N (⟨"Completed", "work", D, 0⟩ : SessionData) :=
    filterMap_replicate_some _ _ _ hline N
  have hcomp : completed_sessions
      (List.replicate N (⟨"Completed", "work", D, 0⟩ : SessionData)) =
      List.replicate N (⟨"Completed", "work", D, 0⟩ : SessionData) :=
    filter_replicate_pos (by rfl) N
  have hwork : work_sessions
      (List.replicate N (⟨"Completed", "work", D, 0⟩ : SessionData)) =
      List.replicate N (⟨"Completed", "work", D, 0⟩ : SessionData) := by
    rw [work_sessions, hcomp]
    exact filter_replicate_pos (by rfl) N
  constructor
  · rw [show (calculate_stats 0 (load_session_data (List.replicate N
      (log_session_event ts "Completed".toList .work ((D : Nat) : Int))))).work_sessions
      = (work_sessions (load_session_data (List.replicate N
      (log_session_event ts "Completed".toList .work ((D : Nat) : Int))))).length
      from rfl]
    rw [hrecs, hwork, List.length_replicate]
  · rw [show (calculate_stats 0 (load_session_data (List.replicate N
      (log_session_event ts "Completed".toList .work ((D : Nat) : Int))))).total_work_time
      = ((work_sessions (load_session_data (List.replicate N
      (log_session_event ts "Completed".toList .work ((D : Nat) : Int))))).map
        (fun s => s.duration)).sum
      from rfl]
    rw [hrecs, hwork, List.map_replicate, List.sum_replicate]
    simp [nsmul_eq_mul]

theorem log_completed_roundtrip_witness :
    (calculate_stats 0 (load_session_data
      (List.replicate 3 (log_session_event ts0 "Completed".toList .work
        (((25 : Nat)) : Int))))).work_sessions = 3 ∧
    (calculate_stats 0 (load_session_data
      (List.replicate 3 (log_session_event ts0 "Completed".toList .work
        (((25 : Nat)) : Int))))).total_work_time = 3 * 25 :=
  ⟨(log_completed_roundtrip 3 25 ts0 (by decide)).1,
   (log_completed_roundtrip 3 25 ts0 (by decide)).2⟩

/-- C4 counterexample: the claim quantifies over every integer duration
`D`; the logger accepts a negative duration (`log_session` takes any
Python int), but the line `... session (-5 minutes)` is parsed by the
pattern with captured duration `5` — the lazy `.*?` absorbs the minus sign
— so `totalWorkMinutes` is `5`, not `N * D = -5`. -/
theorem log_completed_roundtrip_counterexample :
    (calculate_stats 0 (load_session_data
      [log_session_event ts0 "Completed".toList .work (-5)])).work_sessions = 1 ∧
    (calculate_stats 0 (load_session_data
      [log_session_event ts0 "Completed".toList .work (-5)])).total_work_time = 5 ∧
    ¬ (((calculate_stats 0 (load_session_data
      [log_session_event ts0 "Completed".toList .work (-5)])).total_work_time : Int)
        = 1 * (-5)) := by
  refine ⟨by decide, by decide, by decide⟩

/-! ## Claim C10: Stopped lines are skipped by the analyzer -/

/-- C10: the analyzer never produces a record from a `Stopped` line.  The
alternation of the parsing pattern lists only `Started`, `Completed`,
`Paused` and `Resumed`; on a line written by `stop_session` (any session
type, any one-decimal elapsed value `a.b`) the pattern fails at every
start position — at position 0 the action alternation fails on the word
`Stopped`, every later position fails the timestamp group — so the line
contributes nothing to the loaded record sequence, and removing it from a
log leaves `load_session_data` unchanged. -/
theorem stopped_lines_skipped (ty : SessionType) (a b : Nat) :
    parseRecord (stopped_log_line ts0 ty a b) = none ∧
    ∀ pre post : List (List Char),
      load_session_data (pre ++ stopped_log_line ts0 ty a b :: post) =
        load_session_data (pre ++ post) := by
  have hty : '-' ∉ ty.value.toList := by cases ty <;> decide
  have hna : '-' ∉ natChars a := fun hc => isDigit_ne_dash (natChars_digits _ hc) rfl
  have hnb : '-' ∉ natChars b := fun hc => isDigit_ne_dash (natChars_digits _ hc) rfl
  have hsearch : searchParse (stopped_log_line ts0 ty a b) = none := by
    rw [stopped_log_line, logLineWith]
    simp only [List.append_assoc]
    set Xp := "Stopped".toList ++ ([' '] ++ (ty.value.toList ++ (" session (".toList ++
      (floatChars a b ++ " minutes)".toList)))) with hXp
    have hB : searchParse (' ' :: Xp) = none := by
      refine searchParse_no_dash ?_
      intro hmem
      rcases List.mem_cons.mp hmem with h | h
      · exact absurd h (by decide)
      rw [hXp] at h
      rcases List.mem_append.mp h with h | h
      · exact absurd h (by decide)
      rcases List.mem_append.mp h with h | h
      · exact absurd h (by decide)
      rcases List.mem_append.mp h with h | h
      · exact hty h
      rcases List.mem_append.mp h with h | h
      · exact absurd h (by decide)
      rcases List.mem_append.mp h with h | h
      · rw [floatChars] at h
        rcases List.mem_append.mp h with h | h
        · exact hna h
        rcases List.mem_cons.mp h with h | h
        · exact absurd h (by decide)
        · exact hnb h
      · exact absurd h (by decide)
    have hts0 : matchToks tsToks ts0 = some [] := by decide
    have h1 : matchToks tsToks (ts0 ++ (" - ".toList ++ Xp)) =
        some (" - ".toList ++ Xp) := by
      simpa using matchToks_append_some (t := " - ".toList ++ Xp) hts0
    have h2 : matchToks (litToks " - ".toList) (" - ".toList ++ Xp) = some Xp :=
      matchToks_litToks_self _ _
    have ha1 : matchToks (litToks "Started".toList) Xp = none := by
      rw [hXp]
      rfl
    have ha2 : matchToks (litToks "Completed".toList) Xp = none := by
      rw [hXp]
      rfl
    have ha3 : matchToks (litToks "Paused".toList) Xp = none := by
      rw [hXp]
      rfl
    have ha4 : matchToks (litToks "Resumed".toList) Xp = none := by
      rw [hXp]
      rfl
    have h3 : matchAlt actionWords Xp = none := by
      simp only [actionWords, matchAlt, ha1, ha2, ha3, ha4]
    have h0 : matchAt (ts0 ++ (" - ".toList ++ Xp)) = none := by
      simp only [matchAt, h1, h2, h3]
    have s20 : searchParse ("-".toList ++ (' ' :: Xp)) = none := by
      have hm : matchAt (('-' : Char) :: ((' ' :: Xp))) = none :=
        matchAt_none_of_ts_fail (matchTimestamp_early_fail 1 "-".toList (' ' :: Xp)
          (by decide) (by decide))
      exact (searchParse_cons_none hm).trans hB
    have s19 : searchParse (" -".toList ++ (' ' :: Xp)) = none := by
      have hm : matchAt ((' ' : Char) :: ("-".toList ++ (' ' :: Xp))) = none :=
        matchAt_none_of_ts_fail (matchTimestamp_early_fail 1 " -".toList (' ' :: Xp)
          (by decide) (by decide))
      exact (searchParse_cons_none hm).trans s20
    have s18 : searchParse ("0 -".toList ++ (' ' :: Xp)) = none := by
      have hm : matchAt (('0' : Char) :: (" -".toList ++ (' ' :: Xp))) = none :=
        matchAt_none_of_ts_fail (matchTimestamp_early_fail 2 "0 -".toList (' ' :: Xp)
          (by decide) (by decide))
      exact (searchParse_cons_none hm).trans s19
    have s17 : searchParse ("00 -".toList ++ (' ' :: Xp)) = none := by
      have hm : matchAt (('0' : Char) :: ("0 -".toList ++ (' ' :: Xp))) = none :=
        matchAt_none_of_ts_fail (matchTimestamp_early_fail 3 "00 -".toList (' ' :: Xp)
          (by decide) (by decide))
      exact (searchParse_cons_none hm).trans s18
    have s16 : searchParse (":00 -".toList ++ (' ' :: Xp)) = none := by
      have hm : matchAt ((':' : Char) :: ("00 -".toList ++ (' ' :: Xp))) = none :=
        matchAt_none_of_ts_fail (matchTimestamp_early_fail 1 ":00 -".toList (' ' :: Xp)
          (by decide) (by decide))
      exact (searchParse_cons_none hm).trans s17
    have s15 : searchParse ("0:00 -".toList ++ (' ' :: Xp)) = none := by
      have hm : matchAt (('0' : Char) :: (":00 -".toList ++ (' ' :: Xp))) = none :=
        matchAt_none_of_ts_fail (matchTimestamp_early_fail 2 "0:00 -".toList (' ' :: Xp)
          (by decide) (by decide))
      exact (searchParse_cons_none hm).trans s16
    have s14 : searchParse ("00:00 -".toList ++ (' ' :: Xp)) = none := by
      have hm : matchAt (('0' : Char) :: ("0:00 -".toList ++ (' ' :: Xp))) = none :=
        matchAt_none_of_ts_fail (matchTimestamp_early_fail 3 "00:00 -".toList (' ' :: Xp)
          (by decide) (by decide))
      exact (searchParse_cons_none hm).trans s15
    have s13 : searchParse (":00:00 -".toList ++ (' ' :: Xp)) = none := by
      have hm : matchAt ((':' : Char) :: ("00:00 -".toList ++ (' ' :: Xp))) = none :=
        matchAt_none_of_ts_fail (matchTimestamp_early_fail 1 ":00:00 -".toList (' ' :: Xp)
          (by decide) (by decide))
      exact (searchParse_cons_none hm).trans s14
    have s12 : searchParse ("0:00:00 -".toList ++ (' ' :: Xp)) = none := by
      have hm : matchAt (('0' : Char) :: (":00:00 -".toList ++ (' ' :: Xp))) = none :=
        matchAt_none_of_ts_fail (matchTimestamp_early_fail 2 "0:00:00 -".toList (' ' :: Xp)
          (by decide) (by decide))
      exact (searchParse_cons_none hm).trans s13
    have s11 : searchParse ("10:00:00 -".toList ++ (' ' :: Xp)) = none := by
      have hm : matchAt (('1' : Char) :: ("0:00:00 -".toList ++ (' ' :: Xp))) = none :=
        matchAt_none_of_ts_fail (matchTimestamp_early_fail 3 "10:00:00 -".toList (' ' :: Xp)
          (by decide) (by decide))
      exact (searchParse_cons_none hm).trans s12
    have s10 : searchParse (" 10:00:00 -".toList ++ (' ' :: Xp)) = none := by
      have hm : matchAt ((' ' : Char) :: ("10:00:00 -".toList ++ (' ' :: Xp))) = none :=
        matchAt_none_of_ts_fail (matchTimestamp_early_fail 1 " 10:00:00 -".toList (' ' :: Xp)
          (by decide) (by decide))
      exact (searchParse_cons_none hm).trans s11
    have s9 : searchParse ("1 10:00:00 -".toList ++ (' ' :: Xp)) = none := by
      have hm : matchAt (('1' : Char) :: (" 10:00:00 -".toList ++ (' ' :: Xp))) = none :=
        matchAt_none_of_ts_fail (matchTimestamp_early_fail 2 "1 10:00:00 -".toList (' ' :: Xp)
          (by decide) (by decide))
      exact (searchParse_cons_none hm).trans s10
    have s8 : searchParse ("01 10:00:00 -".toList ++ (' ' :: Xp)) = none := by
      have hm : matchAt (('0' : Char) :: ("1 10:00:00 -".toList ++ (' ' :: Xp))) = none :=
        matchAt_none_of_ts_fail (matchTimestamp_early_fail 3 "01 10:00:00 -".toList (' ' :: Xp)
          (by decide) (by decide))
      exact (searchParse_cons_none hm).trans s9
    have s7 : searchParse ("-01 10:00:00 -".toList ++ (' ' :: Xp)) = none := by
      have hm : matchAt (('-' : Char) :: ("01 10:00:00 -".toList ++ (' ' :: Xp))) = none :=
        matchAt_none_of_ts_fail (matchTimestamp_early_fail 1 "-01 10:00:00 -".toList (' ' :: Xp)
          (by decide) (by decide))
      exact (searchParse_cons_none hm).trans s8
    have s6 : searchParse ("1-01 10:00:00 -".toList ++ (' ' :: Xp)) = none := by
      have hm : matchAt (('1' : Char) :: ("-01 10:00:00 -".toList ++ (' ' :: Xp))) = none :=
        matchAt_none_of_ts_fail (matchTimestamp_early_fail 2 "1-01 10:00:00 -".toList (' ' :: Xp)
          (by decide) (by decide))
      exact (searchParse_cons_none hm).trans s7
    have s5 : searchParse ("01-01 10:00:00 -".toList ++ (' ' :: Xp)) = none := by
      have hm : matchAt (('0' : Char) :: ("1-01 10:00:00 -".toList ++ (' ' :: Xp))) = none :=
        matchAt_none_of_ts_fail (matchTimestamp_early_fail 3 "01-01 10:00:00 -".toList (' ' :: Xp)
          (by decide) (by decide))
      exact (searchParse_cons_none hm).trans s6
    have s4 : searchParse ("-01-01 10:00:00 -".toList ++ (' ' :: Xp)) = none := by
      have hm : matchAt (('-' : Char) :: ("01-01 10:00:00 -".toList ++ (' ' :: Xp))) = none :=
        matchAt_none_of_ts_fail (matchTimestamp_early_fail 1 "-01-01 10:00:00 -".toList (' ' :: Xp)
          (by decide) (by decide))
      exact (searchParse_cons_none hm).trans s5
    have s3 : searchParse ("5-01-01 10:00:00 -".toList ++ (' ' :: Xp)) = none := by
      have hm : matchAt (('5' : Char) :: ("-01-01 10:00:00 -".toList ++ (' ' :: Xp))) = none :=
        matchAt_none_of_ts_fail (matchTimestamp_early_fail 2 "5-01-01 10:00:00 -".toList (' ' :: Xp)
          (by decide) (by decide))
      exact (searchParse_cons_none hm).trans s4
    have s2 : searchParse ("25-01-01 10:00:00 -".toList ++ (' ' :: Xp)) = none := by
      have hm : matchAt (('2' : Char) :: ("5-01-01 10:00:00 -".toList ++ (' ' :: Xp))) = none :=
        matchAt_none_of_ts_fail (matchTimestamp_early_fail 3 "25-01-01 10:00:00 -".toList (' ' :: Xp)
          (by decide) (by decide))
      exact (searchParse_cons_none hm).trans s3
    have s1 : searchParse ("025-01-01 10:00:00 -".toList ++ (' ' :: Xp)) = none := by
      have hm : matchAt (('0' : Char) :: ("25-01-01 10:00:00 -".toList ++ (' ' :: Xp))) = none :=
        matchAt_none_of_ts_fail (matchTimestamp_early_fail 4 "025-01-01 10:00:00 -".toList (' ' :: Xp)
          (by decide) (by decide))
      exact (searchParse_cons_none hm).trans s2
    have sfull : searchParse (ts0 ++ (" - ".toList ++ Xp)) = none := by
      have hm : matchAt (('2' : Char) ::
          ("025-01-01 10:00:00 -".toList ++ (' ' :: Xp))) = none := h0
      exact (searchParse_cons_none hm).trans s1
    exact sfull
  refine ⟨by rw [parseRecord, hsearch]; rfl, ?_⟩
  intro pre post
  have hpr : parseRecord (stopped_log_line ts0 ty a b) = none := by
    rw [parseRecord, hsearch]
    rfl
  rw [load_session_data, load_session_data, List.filterMap_append,
    List.filterMap_append, List.filterMap_cons, hpr]
